import Mathlib

/-!
A verification development for the `chiper` CHIP-8 interpreter
(`src/chip8.rs`).  The machine state, the opcode decoder, the xorshift
pseudo-random generator and the instruction dispatcher `emulate_op` are
shallowly embedded below, translated statement by statement from the Rust
source.  Machine integers are modelled as `Nat` with explicit `% 2^w`
wherever the source wraps (u8 writes, u16 address-register arithmetic,
the u64 generator); the mutable register file and the unified memory are
modelled as total functions `Nat → Nat` updated pointwise (out-of-range
addresses are declared undefined behaviour by the design and are not
bounds-checked by the embedding, mirroring the release-build semantics).
The write-only rendering collaborator is modelled as a trace of calls,
and the disassembly line that `emulate_op` prints before dispatching
(program counter plus the two opcode bytes, emitted by the
debug-assertions build) is modelled as a trace of `(pc, b0, b1)`
triples.  A fatal condition (the `unimplemented!` / `unreachable!`
panics and the self-jump process exit) is modelled as a `some` halt
value; no post-instruction counter advance happens in that case because
the Rust process aborts before reaching the second `match`.
-/

namespace Chiper

/-- `const MEMORY_START: usize = 0x200;` -/
def MEMORY_START : Nat := 0x200

/-- `const MEMORY_SIZE: usize = 0x1000;` -/
def MEMORY_SIZE : Nat := 0x1000

/-- `pub const SCREEN_WIDTH: u32 = 64;` -/
def SCREEN_WIDTH : Nat := 64

/-- `pub const SCREEN_HEIGHT: u32 = 32;` -/
def SCREEN_HEIGHT : Nat := 32

/-- `const STACK_MEMORY_END: usize = 0xf00;` -/
def STACK_MEMORY_END : Nat := 0xf00

/-- `const SCREEN_MEMORY_START: u32 = 0xf00;` -/
def SCREEN_MEMORY_START : Nat := 0xf00

/-- Pointwise update of a function, modelling a single array-cell write
such as `self.memory[k] = newVal` or `self.v[k] = newVal`. -/
def upd (f : Nat → Nat) (k newVal : Nat) : Nat → Nat :=
  fun a => if a = k then newVal else f a

/-- One call into the rendering collaborator (the `Screen` trait:
`clear`, `present`, `draw_px`, `clear_px`).  The engine only ever calls
these with non-negative coordinates, so `Nat` coordinates suffice. -/
inductive ScreenOp where
  | clear
  | present
  | drawPx (x y : Nat)
  | clearPx (x y : Nat)
deriving DecidableEq

/-- A fatal end of execution inside `emulate_op`:
`processExit` models the self-jump halt idiom (prints a message, blocks
on stdin, then `std::process::exit(0)`); `notImplemented` models the
argument-less `unimplemented!()` panic (its payload names neither the
opcode bytes nor the program counter); `unknownCommand b0 b1` models
`unreachable!("UNKNOW COMMAND: {:02x} {:02x}", opcode.0, opcode.1)`,
whose payload carries the two opcode bytes. -/
inductive Halt where
  | processExit
  | notImplemented
  | unknownCommand (b0 b1 : Nat)
deriving DecidableEq

/-- The machine state `pub struct Chip8<T>`: register file `v` (16 u8
cells), address register `i` (u16), stack pointer `sp` (usize), program
counter `pc` (usize), unified 4 KiB memory (u8 cells), PRNG seed (u64),
plus the two output traces described in the module docstring. -/
structure Chip8 where
  v : Nat → Nat
  i : Nat
  sp : Nat
  pc : Nat
  memory : Nat → Nat
  seed : Nat
  screen : List ScreenOp
  out : List (Nat × Nat × Nat)

/-- `fn high_nib(byte: u8) -> u8 { byte >> 4 }` -/
def high_nib (b : Nat) : Nat := b >>> 4

/-- `fn low_nib(byte: u8) -> u8 { byte & 0x0f }` -/
def low_nib (b : Nat) : Nat := b &&& 0x0f

/-- `struct Opcode(u8, u8);` — the two raw instruction bytes. -/
structure Opcode where
  b0 : Nat
  b1 : Nat

/-- `fn x(&self) -> usize { Opcode::low_nib(self.0).into() }` -/
def Opcode.x (op : Opcode) : Nat := low_nib op.b0

/-- `fn y(&self) -> usize { Opcode::high_nib(self.1).into() }` -/
def Opcode.y (op : Opcode) : Nat := high_nib op.b1

/-- `fn n(&self) -> u8 { Opcode::low_nib(self.1) }` -/
def Opcode.n (op : Opcode) : Nat := low_nib op.b1

/-- `fn nnn(&self) -> u16 { (Opcode::low_nib(self.0) as u16) << 8 | self.1 as u16 }` -/
def Opcode.nnn (op : Opcode) : Nat := (low_nib op.b0) <<< 8 ||| op.b1

/-- `fn rand(seed: u64) -> u64`, the xorshift generator:
`rnd ^= rnd << 13; rnd ^= rnd >> 7; rnd ^= rnd << 17;` with every u64
left shift wrapping modulo `2 ^ 64`. -/
def rand (seed : Nat) : Nat :=
  let r1 := seed ^^^ ((seed <<< 13) % 2 ^ 64)
  let r2 := r1 ^^^ (r1 >>> 7)
  let r3 := r2 ^^^ ((r2 <<< 17) % 2 ^ 64)
  r3

/-- `fn inc_pc(&mut self) { self.pc += 2; }` -/
def inc_pc (s : Chip8) : Chip8 := { s with pc := s.pc + 2 }

/-- `fn op_disp_clear(&mut self)`: `self.screen.clear(); self.screen.present();`
The framebuffer memory region is not touched by this function. -/
def op_disp_clear (s : Chip8) : Chip8 :=
  { s with screen := s.screen ++ [ScreenOp.clear, ScreenOp.present] }

/-- The inner loop of `op_draw` over `for bi in (0..8).rev()`, carrying
the running column `cx`.  When the sprite bit is clear the column still
advances; when it is set and `cx >= SCREEN_WIDTH` the row is abandoned
(`break`).  Note the source writes `self.memory[screen_line_idx] ^= px`
with `px = 1`, i.e. it always toggles bit 0 of the framebuffer byte,
while the collision read `screen_line & (1 << (cx % 8))` inspects bit
`cx % 8`. -/
def drawBits : List Nat → Nat → Nat → Nat → Chip8 → Chip8
  | [], _, _, _, s => s
  | bi :: rest, cx, cy, spriteLine, s =>
    let px := if spriteLine &&& (1 <<< bi) ≠ 0 then 1 else 0
    if px ≠ 0 then
      if SCREEN_WIDTH ≤ cx then s
      else
        let screenLineIdx := SCREEN_MEMORY_START + cy * 8 + cx / 8
        let screenLine := s.memory screenLineIdx
        let screenPx := screenLine &&& (1 <<< (cx % 8))
        let s1 := if screenPx ≠ 0 then { s with v := upd s.v 0xf 1 } else s
        let s2 := { s1 with
          memory := upd s1.memory screenLineIdx (s1.memory screenLineIdx ^^^ px) }
        let px2 := px ^^^ screenPx
        let s3 :=
          if px2 = 0 then { s2 with screen := s2.screen ++ [ScreenOp.clearPx cx cy] }
          else { s2 with screen := s2.screen ++ [ScreenOp.drawPx cx cy] }
        drawBits rest (cx + 1) cy spriteLine s3
    else drawBits rest (cx + 1) cy spriteLine s

/-- The outer loop of `op_draw` over `for i in 0..len`; a row whose
`cy = y + i` reaches `SCREEN_HEIGHT` terminates the whole draw
(`break`).  `self.i + i as u16` is u16 addition, modelled modulo
`2 ^ 16`. -/
def drawRows : List Nat → Nat → Nat → Chip8 → Chip8
  | [], _, _, s => s
  | i :: rest, x, y, s =>
    let cy := y + i
    if SCREEN_HEIGHT ≤ cy then s
    else
      let spriteLine := s.memory ((s.i + i) % 2 ^ 16)
      let s1 := drawBits [7, 6, 5, 4, 3, 2, 1, 0] x cy spriteLine s
      drawRows rest x y s1

/-- `fn op_draw(&mut self, x: usize, y: usize, len: u8)`: the two
nested loops followed by a single `self.screen.present()`. -/
def op_draw (s : Chip8) (x y : Nat) (len : Nat) : Chip8 :=
  let s1 := drawRows (List.range len) x y s
  { s1 with screen := s1.screen ++ [ScreenOp.present] }

/-- The `0xf..55` store-block loop `for i in 0..opcode.x()` (note the
exclusive upper bound in the source): `self.memory[self.i as usize + i]
= self.v[i]`.  `storeLoop mem v base k` is the memory after the first
`k` iterations. -/
def storeLoop (mem v : Nat → Nat) (base : Nat) : Nat → (Nat → Nat)
  | 0 => mem
  | k + 1 => upd (storeLoop mem v base k) (base + k) (v k)

/-- The `0xf..65` load-block loop `for i in 0..opcode.x()` (exclusive
upper bound): `self.v[i] = self.memory[self.i as usize + i]`.
`loadLoop v mem base k` is the register file after the first `k`
iterations. -/
def loadLoop (v mem : Nat → Nat) (base : Nat) : Nat → (Nat → Nat)
  | 0 => v
  | k + 1 => upd (loadLoop v mem base k) k (mem (base + k))

/-- The first `match Opcode::high_nib(opcode.0)` of `emulate_op`: one
instruction's own effect, before the generic post-dispatch counter
advance.  Every u8 write wraps modulo 256 and every u16 write modulo
`2 ^ 16`, as in the source; `overflowing_add` / `overflowing_sub` on u8
operands `a, b < 256` are rendered as `(a + b) % 256` with carry
`256 ≤ a + b`, and `(a + 256 - b) % 256` with borrow `a < b`. -/
def dispatch (s : Chip8) (op : Opcode) : Chip8 × Option Halt :=
  if high_nib op.b0 = 0x0 then
    if op.b1 = 0xe0 then (op_disp_clear s, none)
    else if op.b1 = 0xee then
      ({ s with
          pc := ((s.memory s.sp) <<< 8) ||| s.memory (s.sp + 1),
          sp := s.sp + 2 }, none)
    else (s, some Halt.notImplemented)
  else if high_nib op.b0 = 0x1 then
    if op.nnn = s.pc then (s, some Halt.processExit)
    else ({ s with pc := op.nnn }, none)
  else if high_nib op.b0 = 0x2 then
    let sp2 := s.sp - 2
    let m1 := upd s.memory sp2 (((s.pc + 2) >>> 8) % 256)
    let m2 := upd m1 (sp2 + 1) ((s.pc + 2) &&& 0xff)
    ({ s with sp := sp2, memory := m2, pc := op.nnn }, none)
  else if high_nib op.b0 = 0x3 then
    (if s.v op.x = op.b1 then inc_pc s else s, none)
  else if high_nib op.b0 = 0x4 then
    (if s.v op.x ≠ op.b1 then inc_pc s else s, none)
  else if high_nib op.b0 = 0x5 then
    (if s.v op.x = s.v op.y then inc_pc s else s, none)
  else if high_nib op.b0 = 0x6 then
    ({ s with v := upd s.v op.x op.b1 }, none)
  else if high_nib op.b0 = 0x7 then
    ({ s with v := upd s.v op.x ((s.v op.x + op.b1) % 256) }, none)
  else if high_nib op.b0 = 0x8 then
    if low_nib op.b1 = 0x0 then
      ({ s with v := upd s.v op.x (s.v op.y) }, none)
    else if low_nib op.b1 = 0x1 then
      ({ s with v := upd s.v op.x (s.v op.x ||| s.v op.y) }, none)
    else if low_nib op.b1 = 0x2 then
      ({ s with v := upd s.v op.x (s.v op.x &&& s.v op.y) }, none)
    else if low_nib op.b1 = 0x3 then
      ({ s with v := upd s.v op.x (s.v op.x ^^^ s.v op.y) }, none)
    else if low_nib op.b1 = 0x4 then
      let val := (s.v op.x + s.v op.y) % 256
      let carry := if 256 ≤ s.v op.x + s.v op.y then 1 else 0
      ({ s with v := upd (upd s.v op.x val) 0xf carry }, none)
    else if low_nib op.b1 = 0x5 then
      let val := (s.v op.x + 256 - s.v op.y) % 256
      let noBorrow := if s.v op.x < s.v op.y then 0 else 1
      ({ s with v := upd (upd s.v op.x val) 0xf noBorrow }, none)
    else if low_nib op.b1 = 0x6 then
      let s1 := { s with v := upd s.v 0xf (s.v op.x &&& 0x1) }
      ({ s1 with v := upd s1.v op.x (s1.v op.x >>> 1) }, none)
    else if low_nib op.b1 = 0x7 then
      let val := (s.v op.y + 256 - s.v op.x) % 256
      let noBorrow := if s.v op.y < s.v op.x then 0 else 1
      ({ s with v := upd (upd s.v op.x val) 0xf noBorrow }, none)
    else if low_nib op.b1 = 0xe then
      let s1 := { s with v := upd s.v 0xf (s.v op.x &&& 0x1) }
      ({ s1 with v := upd s1.v op.x ((s1.v op.x <<< 1) % 256) }, none)
    else (s, some (Halt.unknownCommand op.b0 op.b1))
  else if high_nib op.b0 = 0xa then
    ({ s with i := op.nnn }, none)
  else if high_nib op.b0 = 0xc then
    let number := rand s.seed
    ({ s with seed := number, v := upd s.v op.x ((number % 256) &&& op.b1) }, none)
  else if high_nib op.b0 = 0xd then
    (op_draw s (s.v op.x) (s.v op.y) op.n, none)
  else if high_nib op.b0 = 0xf then
    if op.b1 = 0x1e then
      ({ s with i := (s.i + s.v op.x) % 2 ^ 16 }, none)
    else if op.b1 = 0x55 then
      ({ s with
          memory := storeLoop s.memory s.v s.i op.x,
          i := (s.i + (op.x + 1)) % 2 ^ 16 }, none)
    else if op.b1 = 0x65 then
      ({ s with
          v := loadLoop s.v s.memory s.i op.x,
          i := (s.i + (op.x + 1)) % 2 ^ 16 }, none)
    else (s, some Halt.notImplemented)
  else (s, some Halt.notImplemented)

/-- `fn emulate_op(&mut self)`: fetch the two opcode bytes at `pc`,
emit the disassembly trace line, run the instruction dispatch, then the
second `match Opcode::high_nib(opcode.0)`: every opcode family except
`0x1` receives `inc_pc`.  A fatal dispatch aborts the Rust process, so
no advance is applied on the `some` path. -/
def emulate_op (s0 : Chip8) : Chip8 × Option Halt :=
  let op : Opcode := ⟨s0.memory s0.pc, s0.memory (s0.pc + 1)⟩
  let s := { s0 with out := s0.out ++ [(s0.pc, op.b0, op.b1)] }
  let step := dispatch s op
  if step.2.isSome then step
  else if high_nib op.b0 = 0x1 then step
  else (inc_pc step.1, none)

/-- The opcode/sub-opcode combinations enumerated by §4.2 of the
specification, i.e. exactly the combinations handled by the dispatcher:
everything else falls into an `unimplemented!()` or `unreachable!()`
arm. -/
def enumerated (b0 b1 : Nat) : Prop :=
  (high_nib b0 = 0x0 ∧ (b1 = 0xe0 ∨ b1 = 0xee)) ∨
  high_nib b0 = 0x1 ∨ high_nib b0 = 0x2 ∨ high_nib b0 = 0x3 ∨
  high_nib b0 = 0x4 ∨ high_nib b0 = 0x5 ∨ high_nib b0 = 0x6 ∨
  high_nib b0 = 0x7 ∨
  (high_nib b0 = 0x8 ∧
    (low_nib b1 = 0x0 ∨ low_nib b1 = 0x1 ∨ low_nib b1 = 0x2 ∨
     low_nib b1 = 0x3 ∨ low_nib b1 = 0x4 ∨ low_nib b1 = 0x5 ∨
     low_nib b1 = 0x6 ∨ low_nib b1 = 0x7 ∨ low_nib b1 = 0xe)) ∨
  high_nib b0 = 0xa ∨ high_nib b0 = 0xc ∨ high_nib b0 = 0xd ∨
  (high_nib b0 = 0xf ∧ (b1 = 0x1e ∨ b1 = 0x55 ∨ b1 = 0x65))

instance (b0 b1 : Nat) : Decidable (enumerated b0 b1) := by
  unfold enumerated
  infer_instance

/-! ### Basic lemmas about the embedding -/

theorem upd_same (f : Nat → Nat) (k nv : Nat) : upd f k nv k = nv := by
  simp [upd]

theorem upd_of_ne (f : Nat → Nat) (k nv a : Nat) (h : a ≠ k) : upd f k nv a = f a := by
  simp [upd, h]

theorem high_nib_eq (b : Nat) : high_nib b = b / 16 := by
  have h := Nat.shiftRight_eq_div_pow b 4
  norm_num at h
  exact h

theorem low_nib_eq (b : Nat) : low_nib b = b % 16 := by
  have h := Nat.and_pow_two_sub_one_eq_mod b 4
  norm_num at h
  exact h

theorem rand_zero : rand 0 = 0 := by decide

/-- Unfolding `emulate_op` once the two fetched bytes are known. -/
theorem emulate_op_fetch (s : Chip8) (b0 b1 : Nat)
    (hm0 : s.memory s.pc = b0) (hm1 : s.memory (s.pc + 1) = b1) :
    emulate_op s =
      (let t := dispatch { s with out := s.out ++ [(s.pc, b0, b1)] } ⟨b0, b1⟩
       if t.2.isSome then t
       else if high_nib b0 = 0x1 then t
       else (inc_pc t.1, none)) := by
  subst hm0
  subst hm1
  rfl

/-! ### Per-branch characterizations of `dispatch` -/

theorem dispatch_clear (s : Chip8) (op : Opcode)
    (h0 : high_nib op.b0 = 0x0) (he : op.b1 = 0xe0) :
    dispatch s op = (op_disp_clear s, none) := by
  unfold dispatch
  simp [h0, he]

theorem dispatch_alu_add (s : Chip8) (op : Opcode)
    (h8 : high_nib op.b0 = 0x8) (h4 : low_nib op.b1 = 0x4) :
    dispatch s op =
      ({ s with v := upd (upd s.v op.x ((s.v op.x + s.v op.y) % 256)) 0xf (if 256 ≤ s.v op.x + s.v op.y then 1 else 0) }, none) := by
  unfold dispatch
  simp [h8, h4]

theorem dispatch_alu_sub (s : Chip8) (op : Opcode)
    (h8 : high_nib op.b0 = 0x8) (h5 : low_nib op.b1 = 0x5) :
    dispatch s op =
      ({ s with v := upd (upd s.v op.x ((s.v op.x + 256 - s.v op.y) % 256)) 0xf (if s.v op.x < s.v op.y then 0 else 1) }, none) := by
  unfold dispatch
  simp [h8, h5]

theorem dispatch_rand_and (s : Chip8) (op : Opcode)
    (hc : high_nib op.b0 = 0xc) :
    dispatch s op =
      ({ s with seed := rand s.seed,
                v := upd s.v op.x ((rand s.seed % 256) &&& op.b1) }, none) := by
  unfold dispatch
  simp [hc]

theorem dispatch_store (s : Chip8) (op : Opcode)
    (hf : high_nib op.b0 = 0xf) (h55 : op.b1 = 0x55) :
    dispatch s op =
      ({ s with memory := storeLoop s.memory s.v s.i op.x,
                i := (s.i + (op.x + 1)) % 2 ^ 16 }, none) := by
  unfold dispatch
  simp [hf, h55]

theorem dispatch_load (s : Chip8) (op : Opcode)
    (hf : high_nib op.b0 = 0xf) (h65 : op.b1 = 0x65) :
    dispatch s op =
      ({ s with v := loadLoop s.v s.memory s.i op.x,
                i := (s.i + (op.x + 1)) % 2 ^ 16 }, none) := by
  unfold dispatch
  simp [hf, h65]

theorem dispatch_not_enumerated (s : Chip8) (op : Opcode)
    (hne : ¬ enumerated op.b0 op.b1) :
    dispatch s op = (s, some Halt.notImplemented) ∨
    dispatch s op = (s, some (Halt.unknownCommand op.b0 op.b1)) := by
  unfold enumerated at hne
  push_neg at hne
  obtain ⟨h0, h1, h2, h3, h4, h5, h6, h7, h8, ha, hc, hd, hf⟩ := hne
  unfold dispatch
  by_cases hh0 : high_nib op.b0 = 0x0
  · obtain ⟨he0, hee⟩ := h0 hh0
    left
    simp [hh0, he0, hee]
  · by_cases hh8 : high_nib op.b0 = 0x8
    · obtain ⟨g0, g1, g2, g3, g4, g5, g6, g7, ge⟩ := h8 hh8
      right
      simp [hh8, g0, g1, g2, g3, g4, g5, g6, g7, ge]
    · by_cases hhf : high_nib op.b0 = 0xf
      · obtain ⟨g1e, g55, g65⟩ := hf hhf
        left
        simp [hhf, g1e, g55, g65]
      · left
        simp [hh0, h1, h2, h3, h4, h5, h6, h7, hh8, ha, hc, hd, hhf]

/-! ### The PRNG seed is only touched by the random instruction -/

theorem drawBits_seed (l : List Nat) :
    ∀ (cx cy spriteLine : Nat) (s : Chip8),
      (drawBits l cx cy spriteLine s).seed = s.seed := by
  induction l with
  | nil =>
    intro cx cy spriteLine s
    rfl
  | cons bi rest ih =>
    intro cx cy spriteLine s
    simp only [drawBits]
    split_ifs <;> simp [ih]

theorem drawRows_seed (l : List Nat) :
    ∀ (x y : Nat) (s : Chip8), (drawRows l x y s).seed = s.seed := by
  induction l with
  | nil =>
    intro x y s
    rfl
  | cons i rest ih =>
    intro x y s
    simp only [drawRows]
    split_ifs <;> simp [ih, drawBits_seed]

theorem op_draw_seed (s : Chip8) (x y len : Nat) :
    (op_draw s x y len).seed = s.seed := by
  simp [op_draw, drawRows_seed]

theorem dispatch_seed (s : Chip8) (op : Opcode) (h : s.seed = 0) :
    ((dispatch s op).1).seed = 0 := by
  unfold dispatch
  by_cases h0 : high_nib op.b0 = 0x0
  · rw [if_pos h0]
    by_cases he0 : op.b1 = 0xe0
    · rw [if_pos he0]
      simpa [op_disp_clear] using h
    · rw [if_neg he0]
      by_cases hee : op.b1 = 0xee
      · rw [if_pos hee]
        simpa using h
      · rw [if_neg hee]
        simpa using h
  rw [if_neg h0]
  by_cases h1 : high_nib op.b0 = 0x1
  · rw [if_pos h1]
    by_cases hj : op.nnn = s.pc
    · rw [if_pos hj]
      simpa using h
    · rw [if_neg hj]
      simpa using h
  rw [if_neg h1]
  by_cases h2 : high_nib op.b0 = 0x2
  · rw [if_pos h2]
    simpa using h
  rw [if_neg h2]
  by_cases h3 : high_nib op.b0 = 0x3
  · rw [if_pos h3]
    split_ifs <;> simpa [inc_pc] using h
  rw [if_neg h3]
  by_cases h4 : high_nib op.b0 = 0x4
  · rw [if_pos h4]
    split_ifs <;> simpa [inc_pc] using h
  rw [if_neg h4]
  by_cases h5 : high_nib op.b0 = 0x5
  · rw [if_pos h5]
    split_ifs <;> simpa [inc_pc] using h
  rw [if_neg h5]
  by_cases h6 : high_nib op.b0 = 0x6
  · rw [if_pos h6]
    simpa using h
  rw [if_neg h6]
  by_cases h7 : high_nib op.b0 = 0x7
  · rw [if_pos h7]
    simpa using h
  rw [if_neg h7]
  by_cases h8 : high_nib op.b0 = 0x8
  · rw [if_pos h8]
    by_cases g0 : low_nib op.b1 = 0x0
    · rw [if_pos g0]
      simpa using h
    rw [if_neg g0]
    by_cases g1 : low_nib op.b1 = 0x1
    · rw [if_pos g1]
      simpa using h
    rw [if_neg g1]
    by_cases g2 : low_nib op.b1 = 0x2
    · rw [if_pos g2]
      simpa using h
    rw [if_neg g2]
    by_cases g3 : low_nib op.b1 = 0x3
    · rw [if_pos g3]
      simpa using h
    rw [if_neg g3]
    by_cases g4 : low_nib op.b1 = 0x4
    · rw [if_pos g4]
      simpa using h
    rw [if_neg g4]
    by_cases g5 : low_nib op.b1 = 0x5
    · rw [if_pos g5]
      simpa using h
    rw [if_neg g5]
    by_cases g6 : low_nib op.b1 = 0x6
    · rw [if_pos g6]
      simpa using h
    rw [if_neg g6]
    by_cases g7 : low_nib op.b1 = 0x7
    · rw [if_pos g7]
      simpa using h
    rw [if_neg g7]
    by_cases ge : low_nib op.b1 = 0xe
    · rw [if_pos ge]
      simpa using h
    rw [if_neg ge]
    simpa using h
  rw [if_neg h8]
  by_cases ha : high_nib op.b0 = 0xa
  · rw [if_pos ha]
    simpa using h
  rw [if_neg ha]
  by_cases hc : high_nib op.b0 = 0xc
  · rw [if_pos hc]
    simp [h, rand_zero]
  rw [if_neg hc]
  by_cases hd : high_nib op.b0 = 0xd
  · rw [if_pos hd]
    simpa [op_draw_seed] using h
  rw [if_neg hd]
  by_cases hf : high_nib op.b0 = 0xf
  · rw [if_pos hf]
    by_cases g1e : op.b1 = 0x1e
    · rw [if_pos g1e]
      simpa using h
    rw [if_neg g1e]
    by_cases g55 : op.b1 = 0x55
    · rw [if_pos g55]
      simpa using h
    rw [if_neg g55]
    by_cases g65 : op.b1 = 0x65
    · rw [if_pos g65]
      simpa using h
    rw [if_neg g65]
    simpa using h
  rw [if_neg hf]
  simpa using h

theorem emulate_op_seed (s : Chip8) (h : s.seed = 0) :
    ((emulate_op s).1).seed = 0 := by
  have hd := dispatch_seed
    { s with out := s.out ++ [(s.pc, s.memory s.pc, s.memory (s.pc + 1))] }
    ⟨s.memory s.pc, s.memory (s.pc + 1)⟩ (by simpa using h)
  simp only [emulate_op]
  split_ifs <;> simp [inc_pc, hd]

/-! ### The block-transfer loops -/

theorem storeLoop_hit (mem v : Nat → Nat) (base : Nat) :
    ∀ k j, j < k → storeLoop mem v base k (base + j) = v j := by
  intro k
  induction k with
  | zero =>
    intro j h
    omega
  | succ n ih =>
    intro j h
    simp only [storeLoop]
    by_cases hj : j = n
    · subst hj
      exact upd_same _ _ _
    · rw [upd_of_ne _ _ _ _ (by omega)]
      exact ih j (by omega)

theorem storeLoop_miss (mem v : Nat → Nat) (base : Nat) :
    ∀ k a, (∀ j, j < k → a ≠ base + j) → storeLoop mem v base k a = mem a := by
  intro k
  induction k with
  | zero =>
    intro a _
    rfl
  | succ n ih =>
    intro a h
    simp only [storeLoop]
    rw [upd_of_ne _ _ _ _ (h n (by omega))]
    exact ih a (fun j hj => h j (by omega))

theorem loadLoop_hit (v mem : Nat → Nat) (base : Nat) :
    ∀ k j, j < k → loadLoop v mem base k j = mem (base + j) := by
  intro k
  induction k with
  | zero =>
    intro j h
    omega
  | succ n ih =>
    intro j h
    simp only [loadLoop]
    by_cases hj : j = n
    · subst hj
      exact upd_same _ _ _
    · rw [upd_of_ne _ _ _ _ hj]
      exact ih j (by omega)

theorem loadLoop_miss (v mem : Nat → Nat) (base : Nat) :
    ∀ k j, k ≤ j → loadLoop v mem base k j = v j := by
  intro k
  induction k with
  | zero =>
    intro j _
    rfl
  | succ n ih =>
    intro j h
    simp only [loadLoop]
    rw [upd_of_ne _ _ _ _ (by omega)]
    exact ih j (by omega)

/-! ### Claim C7 -/

/-- Claim C7: for all 8-bit values `a = register[x]` and
`b = register[y]` with `x, y` distinct from 15, the add-with-carry ALU
instruction (opcode `8xy4`) stores `(a + b) % 256` into `register[x]`
and sets register 15 to 1 if `a + b ≥ 256` and to 0 otherwise.
Here `x = low_nib b0` and `y = high_nib b1` are the decoded register
operands of the fetched instruction bytes `b0 b1`. -/
theorem C7_add_with_carry (s : Chip8) (b0 b1 a b : Nat)
    (hm0 : s.memory s.pc = b0) (hm1 : s.memory (s.pc + 1) = b1)
    (h8 : high_nib b0 = 0x8) (h4 : low_nib b1 = 0x4)
    (hx15 : low_nib b0 ≠ 15) (hy15 : high_nib b1 ≠ 15)
    (ha : s.v (low_nib b0) = a) (hb : s.v (high_nib b1) = b)
    (ha8 : a < 256) (hb8 : b < 256) :
    (emulate_op s).1.v (low_nib b0) = (a + b) % 256 ∧
    (emulate_op s).1.v 15 = (if 256 ≤ a + b then 1 else 0) ∧
    (emulate_op s).2 = none := by
  rw [emulate_op_fetch s b0 b1 hm0 hm1]
  rw [dispatch_alu_add _ ⟨b0, b1⟩ h8 h4]
  simp only [Opcode.x, Opcode.y]
  refine ⟨?_, ?_, ?_⟩ <;> simp [inc_pc, h8, upd, hx15, ha, hb]

def sC7 : Chip8 :=
  { v := fun r => if r = 0 then 200 else if r = 1 then 100 else 0,
    i := 0, sp := STACK_MEMORY_END, pc := 0x200,
    memory := fun a => if a = 0x200 then 0x80 else if a = 0x201 then 0x14 else 0,
    seed := 0, screen := [], out := [] }

/-- Witness for C7 at `v0 = 200`, `v1 = 100`, opcode `80 14`. -/
theorem C7_add_with_carry_witness :
    (emulate_op sC7).1.v (low_nib 0x80) = (200 + 100) % 256 ∧
    (emulate_op sC7).1.v 15 = (if 256 ≤ 200 + 100 then 1 else 0) ∧
    (emulate_op sC7).2 = none :=
  C7_add_with_carry sC7 0x80 0x14 200 100 (by decide) (by decide) (by decide)
    (by decide) (by decide) (by decide) (by decide) (by decide) (by decide) (by decide)

/-! ### Claim C8 -/

/-- Claim C8: for all 8-bit values `a = register[x]` and
`b = register[y]` with `x, y` distinct from 15, the subtract-with-borrow
ALU instruction (opcode `8xy5`) stores `(a - b) mod 256` (rendered as
`(a + 256 - b) % 256`, the u8 wrapping difference) into `register[x]`
and sets register 15 to 0 if `a < b` and to 1 otherwise (inverted-borrow
convention). -/
theorem C8_sub_with_borrow (s : Chip8) (b0 b1 a b : Nat)
    (hm0 : s.memory s.pc = b0) (hm1 : s.memory (s.pc + 1) = b1)
    (h8 : high_nib b0 = 0x8) (h5 : low_nib b1 = 0x5)
    (hx15 : low_nib b0 ≠ 15) (hy15 : high_nib b1 ≠ 15)
    (ha : s.v (low_nib b0) = a) (hb : s.v (high_nib b1) = b)
    (ha8 : a < 256) (hb8 : b < 256) :
    (emulate_op s).1.v (low_nib b0) = (a + 256 - b) % 256 ∧
    (emulate_op s).1.v 15 = (if a < b then 0 else 1) ∧
    (emulate_op s).2 = none := by
  rw [emulate_op_fetch s b0 b1 hm0 hm1]
  rw [dispatch_alu_sub _ ⟨b0, b1⟩ h8 h5]
  simp only [Opcode.x, Opcode.y]
  refine ⟨?_, ?_, ?_⟩ <;> simp [inc_pc, h8, upd, hx15, ha, hb]

def sC8 : Chip8 :=
  { v := fun r => if r = 0 then 100 else if r = 1 then 200 else 0,
    i := 0, sp := STACK_MEMORY_END, pc := 0x200,
    memory := fun a => if a = 0x200 then 0x80 else if a = 0x201 then 0x15 else 0,
    seed := 0, screen := [], out := [] }

/-- Witness for C8 at `v0 = 100`, `v1 = 200`, opcode `80 15`
(borrow case: flag must be 0). -/
theorem C8_sub_with_borrow_witness :
    (emulate_op sC8).1.v (low_nib 0x80) = (100 + 256 - 200) % 256 ∧
    (emulate_op sC8).1.v 15 = (if 100 < 200 then 0 else 1) ∧
    (emulate_op sC8).2 = none :=
  C8_sub_with_borrow sC8 0x80 0x15 100 200 (by decide) (by decide) (by decide)
    (by decide) (by decide) (by decide) (by decide) (by decide) (by decide) (by decide)

/-! ### Claim C5 -/

def sC5 : Chip8 :=
  { v := fun _ => 0, i := 0, sp := STACK_MEMORY_END, pc := 0x200,
    memory := fun a =>
      if a = 0x200 then 0x00 else if a = 0x201 then 0xe0 else
      if a = 0xf00 then 0xff else 0,
    seed := 0, screen := [], out := [] }

/-- Claim C5 counterexample: with framebuffer byte `0xf00` holding
`0xff`, executing the Clear-display instruction (`00 E0`) leaves that
byte at `0xff ≠ 0`, so the claim that the instruction zeroes every byte
of the framebuffer memory region is false: `op_disp_clear` only calls
the rendering collaborator and never writes memory. -/
theorem C5_counterexample :
    (emulate_op sC5).1.memory 0xf00 = 0xff ∧ (0xff : Nat) ≠ 0 := by
  decide

/-- Claim C5 as amended: executing the Clear-display instruction
(`00 E0`) leaves the entire unified memory — in particular the
framebuffer region — and all registers unchanged; it signals the
rendering collaborator to clear and present, and the program counter
receives the generic advance of 2. -/
theorem C5_clear_display (s : Chip8)
    (hm0 : s.memory s.pc = 0x00) (hm1 : s.memory (s.pc + 1) = 0xe0) :
    (emulate_op s).1.memory = s.memory ∧
    (emulate_op s).1.screen = s.screen ++ [ScreenOp.clear, ScreenOp.present] ∧
    (emulate_op s).1.v = s.v ∧
    (emulate_op s).1.i = s.i ∧
    (emulate_op s).1.sp = s.sp ∧
    (emulate_op s).1.pc = s.pc + 2 ∧
    (emulate_op s).2 = none := by
  rw [emulate_op_fetch s 0x00 0xe0 hm0 hm1]
  rw [dispatch_clear _ ⟨0x00, 0xe0⟩ (by decide) (by decide)]
  simp [op_disp_clear, inc_pc, show high_nib 0x00 = 0 by decide]

/-- Witness for the amended C5 at a state whose framebuffer is
non-blank. -/
theorem C5_clear_display_witness :
    (emulate_op sC5).1.memory = sC5.memory ∧
    (emulate_op sC5).1.screen = sC5.screen ++ [ScreenOp.clear, ScreenOp.present] ∧
    (emulate_op sC5).1.v = sC5.v ∧
    (emulate_op sC5).1.i = sC5.i ∧
    (emulate_op sC5).1.sp = sC5.sp ∧
    (emulate_op sC5).1.pc = sC5.pc + 2 ∧
    (emulate_op sC5).2 = none :=
  C5_clear_display sC5 (by decide) (by decide)

/-! ### Claim C6 -/

/-- Claim C6: executing one instruction step on any opcode/sub-opcode
combination not enumerated in §4.2 halts execution fatally — the result
is one of the two panic values, never a silent no-op — and the
disassembly line emitted at the top of `emulate_op` (printed by the
debug-assertions build before the panic fires) surfaces both the two
offending opcode bytes and the program-counter address to the operator;
the `unreachable!` panic of the ALU family additionally carries the two
bytes in its own payload. -/
theorem C6_unimplemented_fatal (s : Chip8) (b0 b1 : Nat)
    (hm0 : s.memory s.pc = b0) (hm1 : s.memory (s.pc + 1) = b1)
    (hne : ¬ enumerated b0 b1) :
    ((emulate_op s).2 = some Halt.notImplemented ∨
      (emulate_op s).2 = some (Halt.unknownCommand b0 b1)) ∧
    (emulate_op s).1.out = s.out ++ [(s.pc, b0, b1)] := by
  rw [emulate_op_fetch s b0 b1 hm0 hm1]
  rcases dispatch_not_enumerated
      { s with out := s.out ++ [(s.pc, b0, b1)] } ⟨b0, b1⟩ hne with hd | hd <;>
    rw [hd] <;> simp

def sC6 : Chip8 :=
  { v := fun _ => 0, i := 0, sp := STACK_MEMORY_END, pc := 0x200,
    memory := fun a => if a = 0x200 then 0x90 else 0,
    seed := 0, screen := [], out := [] }

/-- Witness for C6 at opcode `90 00` (the skip-if-registers-unequal
instruction of standard CHIP-8, not part of this interpreter's
enumerated set). -/
theorem C6_unimplemented_fatal_witness :
    ((emulate_op sC6).2 = some Halt.notImplemented ∨
      (emulate_op sC6).2 = some (Halt.unknownCommand 0x90 0x00)) ∧
    (emulate_op sC6).1.out = sC6.out ++ [(sC6.pc, 0x90, 0x00)] :=
  C6_unimplemented_fatal sC6 0x90 0x00 (by decide) (by decide) (by decide)

/-! ### Claim C1 -/

def sC1 : Chip8 :=
  { v := fun _ => 0, i := 0, sp := STACK_MEMORY_END, pc := 0x200,
    memory := fun a =>
      if a = 0x200 then 0x23 else if a = 0x201 then 0x00 else
      if a = 0x302 then 0x00 else if a = 0x303 then 0xee else 0,
    seed := 0, screen := [], out := [] }

/-- Claim C1 is falsified by the code: `Call 0x300` (bytes `23 00`)
executed at address `0x200`, followed by the matching `Return`
(`00 EE`).  The second `match` of `emulate_op` exempts only opcode
family `0x1` from the generic advance, so the call lands at
`0x302 = nnn + 2` (not `nnn`) and the return resumes at
`0x204 = call-site + 4` (not `call-site + 2`); the stack pointer is
restored correctly.  This contradicts the source's own comments (the
pushed word is documented as the address of the next instruction, and
the post-dispatch comment says jump-like instructions change the
program counter by themselves). -/
theorem C1_call_return_eval :
    (emulate_op sC1).1.pc = 0x302 ∧
    (emulate_op (emulate_op sC1).1).1.pc = 0x204 ∧
    (emulate_op (emulate_op sC1).1).1.sp = STACK_MEMORY_END ∧
    (0x204 : Nat) ≠ 0x200 + 2 := by
  decide

/-! ### Claim C2 -/

def sC2 : Chip8 :=
  { v := fun r => if r = 0 then 0x80 else 0,
    i := 0, sp := STACK_MEMORY_END, pc := 0x200,
    memory := fun a => if a = 0x200 then 0x80 else if a = 0x201 then 0x0e else 0,
    seed := 0, screen := [], out := [] }

/-- Claim C2 is falsified by the code: with `v0 = 0x80` (bit 7 set,
bit 0 clear), the shift-left instruction `80 0E` sets register 15 to
`v0 & 0x1 = 0`, not to the pre-shift most-significant bit 1 — the
source's flag line reads `self.v[0xf] = self.v[opcode.x()] & 0x1`,
contradicting its own comment "Stores the most significant bit of VX
in VF".  The shift itself is performed as documented
(`v0` becomes `0x00`). -/
theorem C2_shift_left_eval :
    (emulate_op sC2).1.v 15 = 0 ∧
    (emulate_op sC2).1.v 0 = 0x00 ∧
    (0 : Nat) ≠ 1 := by
  decide

/-! ### Claim C3 -/

def sC3 : Chip8 :=
  { v := fun r => if r = 0 then 0xaa else if r = 1 then 0xbb else 0,
    i := 0x400, sp := STACK_MEMORY_END, pc := 0x200,
    memory := fun a => if a = 0x200 then 0xf1 else if a = 0x201 then 0x55 else 0,
    seed := 0, screen := [], out := [] }

/-- Claim C3 is falsified by the code: `F1 55` (store block, x = 1)
with `v0 = 0xAA`, `v1 = 0xBB`, `I = 0x400` writes only
`memory[0x400] = v0` — the loop `for i in 0..opcode.x()` has an
exclusive upper bound, so `register[x]` itself is never transferred
(`memory[0x401]` stays 0 instead of receiving `0xBB`), contradicting
the source's own comment "Stores V0 to VX (including VX)".  The address
register is still advanced by `x + 1 = 2`. -/
theorem C3_store_block_eval :
    (emulate_op sC3).1.memory 0x400 = 0xaa ∧
    (emulate_op sC3).1.memory 0x401 = 0 ∧
    (emulate_op sC3).1.i = 0x402 ∧
    (0 : Nat) ≠ 0xbb := by
  decide

/-! ### Claim C4 -/

def sC4 : Chip8 :=
  { v := fun _ => 0, i := 0x300, sp := STACK_MEMORY_END, pc := 0x200,
    memory := fun a => if a = 0x300 then 0x80 else 0,
    seed := 0, screen := [], out := [] }

/-- Claim C4 is falsified by the code: drawing the one-row sprite
`0x80` at coordinates `(1, 0)` twice on a blank framebuffer.  The first
draw sets a framebuffer pixel (byte `0xf00` becomes 1, because the
write `memory[idx] ^= px` always toggles bit 0), and the second draw
does restore the byte to 0, but it leaves register 15 at 0 instead of
reporting the collision: the collision read inspects bit `cx % 8 = 1`
of the byte while the first draw set bit 0, so the flip from set to
unset goes unreported, contradicting the source's own comment that VF
is set to 1 when a pixel is flipped from set to unset. -/
theorem C4_draw_twice_eval :
    (op_draw sC4 1 0 1).memory 0xf00 = 1 ∧
    (op_draw (op_draw sC4 1 0 1) 1 0 1).v 15 = 0 ∧
    (op_draw (op_draw sC4 1 0 1) 1 0 1).memory 0xf00 = 0 ∧
    (0 : Nat) ≠ 1 := by
  decide

/-! ### Claim C9 -/

/-- Effect of one store-block instruction `Fx55` on the machine state. -/
theorem emulate_op_store_char (s : Chip8) (x : Nat) (hx : x < 16)
    (hm0 : s.memory s.pc = 0xf0 + x) (hm1 : s.memory (s.pc + 1) = 0x55) :
    (emulate_op s).1.v = s.v ∧
    (emulate_op s).1.memory = storeLoop s.memory s.v s.i x ∧
    (emulate_op s).1.i = (s.i + (x + 1)) % 2 ^ 16 ∧
    (emulate_op s).1.pc = s.pc + 2 := by
  have hfn : high_nib (0xf0 + x) = 0xf := by
    rw [high_nib_eq]
    omega
  have hxn : low_nib (0xf0 + x) = x := by
    rw [low_nib_eq]
    omega
  rw [emulate_op_fetch s (0xf0 + x) 0x55 hm0 hm1]
  rw [dispatch_store _ ⟨0xf0 + x, 0x55⟩ hfn rfl]
  simp only [Opcode.x]
  refine ⟨?_, ?_, ?_, ?_⟩ <;> simp [inc_pc, hfn, hxn]

/-- Effect of one load-block instruction `Fx65` on the machine state. -/
theorem emulate_op_load_char (s : Chip8) (x : Nat) (hx : x < 16)
    (hm0 : s.memory s.pc = 0xf0 + x) (hm1 : s.memory (s.pc + 1) = 0x65) :
    (emulate_op s).1.v = loadLoop s.v s.memory s.i x ∧
    (emulate_op s).1.i = (s.i + (x + 1)) % 2 ^ 16 := by
  have hfn : high_nib (0xf0 + x) = 0xf := by
    rw [high_nib_eq]
    omega
  have hxn : low_nib (0xf0 + x) = x := by
    rw [low_nib_eq]
    omega
  rw [emulate_op_fetch s (0xf0 + x) 0x65 hm0 hm1]
  rw [dispatch_load _ ⟨0xf0 + x, 0x65⟩ hfn rfl]
  simp only [Opcode.x]
  refine ⟨?_, ?_⟩ <;> simp [inc_pc, hfn, hxn]

/-- Claim C9: executing Store-block (`Fx55` fetched at `pc`) and then
Load-block (`Fx65` fetched at `pc + 2`) with the same register range
`0..=x` and the same address-register value (the address register is
set back to `s.i` for the load, as the claim's premise demands) leaves
every register in the range with exactly its original value, and each
of the two instructions advances the address register by the range
length `x + 1` (modulo the 16-bit register width).  The disjointness
hypothesis states that the block does not overwrite the load
instruction's own two opcode bytes — otherwise the premise "and then
Load-block" would not hold. -/
theorem C9_store_load_roundtrip (s : Chip8) (x : Nat) (hx : x < 16)
    (hm0 : s.memory s.pc = 0xf0 + x) (hm1 : s.memory (s.pc + 1) = 0x55)
    (hm2 : s.memory (s.pc + 2) = 0xf0 + x) (hm3 : s.memory (s.pc + 3) = 0x65)
    (hdisj : ∀ j, j < x → s.i + j ≠ s.pc + 2 ∧ s.i + j ≠ s.pc + 3) :
    (∀ j, j ≤ x → (emulate_op { (emulate_op s).1 with i := s.i }).1.v j = s.v j) ∧
    (emulate_op s).1.i = (s.i + (x + 1)) % 2 ^ 16 ∧
    (emulate_op { (emulate_op s).1 with i := s.i }).1.i = (s.i + (x + 1)) % 2 ^ 16 := by
  obtain ⟨hv, hmem, hi, hpc⟩ := emulate_op_store_char s x hx hm0 hm1
  set t := (emulate_op s).1 with ht
  set u : Chip8 := { t with i := s.i } with hu
  have humem : u.memory = storeLoop s.memory s.v s.i x := by
    rw [hu]
    simpa using hmem
  have hupc : u.pc = s.pc + 2 := by
    rw [hu]
    simpa using hpc
  have huv : u.v = s.v := by
    rw [hu]
    simpa using hv
  have hui : u.i = s.i := by
    rw [hu]
  have hu0 : u.memory u.pc = 0xf0 + x := by
    rw [humem, hupc]
    rw [storeLoop_miss _ _ _ _ _ (fun j hj hc => (hdisj j hj).1 hc.symm)]
    exact hm2
  have hu1 : u.memory (u.pc + 1) = 0x65 := by
    rw [humem, hupc, show s.pc + 2 + 1 = s.pc + 3 by omega]
    rw [storeLoop_miss _ _ _ _ _ (fun j hj hc => (hdisj j hj).2 hc.symm)]
    exact hm3
  obtain ⟨hlv, hli⟩ := emulate_op_load_char u x hx hu0 hu1
  refine ⟨?_, hi, ?_⟩
  · intro j hj
    rw [hlv, hui, humem, huv]
    by_cases hjx : j < x
    · rw [loadLoop_hit _ _ _ _ _ hjx]
      exact storeLoop_hit _ _ _ _ _ hjx
    · rw [show j = x by omega]
      exact loadLoop_miss _ _ _ _ _ (le_refl x)
  · rw [hli, hui]

def sC9 : Chip8 :=
  { v := fun r => if r = 0 then 11 else if r = 1 then 22 else if r = 2 then 33 else 0,
    i := 0x400, sp := STACK_MEMORY_END, pc := 0x200,
    memory := fun a =>
      if a = 0x200 then 0xf2 else if a = 0x201 then 0x55 else
      if a = 0x202 then 0xf2 else if a = 0x203 then 0x65 else 0,
    seed := 0, screen := [], out := [] }

/-- Witness for C9 with `x = 2`, `I = 0x400`, registers 11/22/33. -/
theorem C9_store_load_roundtrip_witness :
    (emulate_op { (emulate_op sC9).1 with i := sC9.i }).1.v 0 = sC9.v 0 ∧
    (emulate_op { (emulate_op sC9).1 with i := sC9.i }).1.v 2 = sC9.v 2 ∧
    (emulate_op sC9).1.i = (sC9.i + (2 + 1)) % 2 ^ 16 := by
  have h := C9_store_load_roundtrip sC9 2 (by decide) (by decide) (by decide)
    (by decide) (by decide) (by decide)
  exact ⟨h.1 0 (by decide), h.1 2 (by decide), h.2.1⟩

/-! ### Claim C10 -/

/-- Claim C10: zero is a fixed point of the xorshift step — `rand 0 = 0`;
executing any single instruction from a state whose seed is 0 leaves
the seed 0 (so once the PRNG state is 0 it is 0 forever); and executing
a Random-AND instruction (`Cxnn`) from a state whose seed is 0 writes 0
into `register[x]` while persisting 0 as the next seed. -/
theorem C10_xorshift_zero_fixed_point :
    rand 0 = 0 ∧
    (∀ s : Chip8, s.seed = 0 → (emulate_op s).1.seed = 0) ∧
    (∀ (s : Chip8) (b0 b1 : Nat), s.seed = 0 → s.memory s.pc = b0 →
      s.memory (s.pc + 1) = b1 → high_nib b0 = 0xc →
      (emulate_op s).1.v (low_nib b0) = 0 ∧ (emulate_op s).1.seed = 0) := by
  refine ⟨rand_zero, emulate_op_seed, ?_⟩
  intro s b0 b1 hseed hm0 hm1 hc
  refine ⟨?_, emulate_op_seed s hseed⟩
  rw [emulate_op_fetch s b0 b1 hm0 hm1]
  rw [dispatch_rand_and _ ⟨b0, b1⟩ hc]
  simp only [Opcode.x]
  simp [inc_pc, hc, hseed, rand_zero, upd]

def sC10 : Chip8 :=
  { v := fun _ => 7, i := 0, sp := STACK_MEMORY_END, pc := 0x200,
    memory := fun a => if a = 0x200 then 0xc1 else if a = 0x201 then 0xff else 0,
    seed := 0, screen := [], out := [] }

/-- Witness for C10 at opcode `C1 FF` with seed 0. -/
theorem C10_xorshift_zero_fixed_point_witness :
    (emulate_op sC10).1.v (low_nib 0xc1) = 0 ∧ (emulate_op sC10).1.seed = 0 :=
  C10_xorshift_zero_fixed_point.2.2 sC10 0xc1 0xff rfl (by decide) (by decide)
    (by decide)

end Chiper
